import Mathlib

/-!
Verification of the key-derivation core and encrypt/decrypt orchestration of
the ImageEncryption repository (`src/key_generate.py`, `src/main.py`).

Bytes are modelled as natural numbers below 256 (`List Nat`), and 32-bit
words as natural numbers reduced modulo `2^32`.  The repository's own code is
embedded directly; the external capabilities it calls (`hashlib.sha256` and
`base64.urlsafe_b64encode`/`b64decode`, which are fixed by FIPS 180-4 and
RFC 4648, and the opaque `cryptography.fernet` / PIL capabilities, which the
spec treats as external collaborators) are embedded from those standards and
from the spec respectively.
-/

/-- Addition of 32-bit words, reduced modulo `2^32` (FIPS 180-4 `+`). -/
def add32 (x y : Nat) : Nat := (x + y) % 4294967296

/-- Right rotation of a 32-bit word by `n` places (FIPS 180-4 `ROTR`). -/
def rotr32 (n x : Nat) : Nat := ((x >>> n) ||| (x <<< (32 - n))) % 4294967296

/-- Bitwise complement on 32 bits. -/
def not32 (x : Nat) : Nat := x ^^^ 4294967295

/-- FIPS 180-4 `Ch(x,y,z) = (x AND y) XOR (NOT x AND z)`. -/
def sha2Ch (x y z : Nat) : Nat := (x &&& y) ^^^ (not32 x &&& z)

/-- FIPS 180-4 `Maj(x,y,z) = (x AND y) XOR (x AND z) XOR (y AND z)`. -/
def sha2Maj (x y z : Nat) : Nat := (x &&& y) ^^^ (x &&& z) ^^^ (y &&& z)

/-- FIPS 180-4 `Σ0(x) = ROTR2(x) XOR ROTR13(x) XOR ROTR22(x)`. -/
def bigSigma0 (x : Nat) : Nat := rotr32 2 x ^^^ rotr32 13 x ^^^ rotr32 22 x

/-- FIPS 180-4 `Σ1(x) = ROTR6(x) XOR ROTR11(x) XOR ROTR25(x)`. -/
def bigSigma1 (x : Nat) : Nat := rotr32 6 x ^^^ rotr32 11 x ^^^ rotr32 25 x

/-- FIPS 180-4 `σ0(x) = ROTR7(x) XOR ROTR18(x) XOR SHR3(x)`. -/
def smallSigma0 (x : Nat) : Nat := rotr32 7 x ^^^ rotr32 18 x ^^^ (x >>> 3)

/-- FIPS 180-4 `σ1(x) = ROTR17(x) XOR ROTR19(x) XOR SHR10(x)`. -/
def smallSigma1 (x : Nat) : Nat := rotr32 17 x ^^^ rotr32 19 x ^^^ (x >>> 10)

/-- The 64 SHA-256 round constants (FIPS 180-4 §4.2.2). -/
def sha256K : List Nat :=
  [1116352408, 1899447441, 3049323471, 3921009573, 961987163, 1508970993,
   2453635748, 2870763221, 3624381080, 310598401, 607225278, 1426881987,
   1925078388, 2162078206, 2614888103, 3248222580, 3835390401, 4022224774,
   264347078, 604807628, 770255983, 1249150122, 1555081692, 1996064986,
   2554220882, 2821834349, 2952996808, 3210313671, 3336571891, 3584528711,
   113926993, 338241895, 666307205, 773529912, 1294757372, 1396182291,
   1695183700, 1986661051, 2177026350, 2456956037, 2730485921, 2820302411,
   3259730800, 3345764771, 3516065817, 3600352804, 4094571909, 275423344,
   430227734, 506948616, 659060556, 883997877, 958139571, 1322822218,
   1537002063, 1747873779, 1955562222, 2024104815, 2227730452, 2361852424,
   2428436474, 2756734187, 3204031479, 3329325298]

/-- The running hash value `H` of SHA-256: eight 32-bit words. -/
structure Sha256State where
  h0 : Nat
  h1 : Nat
  h2 : Nat
  h3 : Nat
  h4 : Nat
  h5 : Nat
  h6 : Nat
  h7 : Nat
deriving Repr, DecidableEq

/-- The SHA-256 initial hash value (FIPS 180-4 §5.3.3). -/
def sha256InitState : Sha256State :=
  ⟨1779033703, 3144134277, 1013904242, 2773480762, 1359893119, 2600822924, 528734635, 1541459225⟩

/-- Big-endian assembly of 4 bytes into one 32-bit word (FIPS 180-4 §5.2.1). -/
def wordsOfBytes : List Nat → List Nat
  | a :: b :: c :: d :: rest => (a * 16777216 + b * 65536 + c * 256 + d) :: wordsOfBytes rest
  | _ => []

/-- Extend a message schedule by `fuel` further words by the FIPS 180-4 §6.2.2
recurrence `W[t] = σ1(W[t-2]) + W[t-7] + σ0(W[t-15]) + W[t-16]`. -/
def extendSchedule (w : List Nat) : Nat → List Nat
  | 0 => w
  | fuel + 1 =>
    extendSchedule
      (w ++ [add32 (add32 (smallSigma1 (w.getD (w.length - 2) 0)) (w.getD (w.length - 7) 0))
             (add32 (smallSigma0 (w.getD (w.length - 15) 0)) (w.getD (w.length - 16) 0))]) fuel

/-- One SHA-256 round: update the working variables with one `K`/`W` pair. -/
def sha256Round (s : Sha256State) (k w : Nat) : Sha256State :=
  let t1 := add32 (add32 s.h7 (bigSigma1 s.h4)) (add32 (sha2Ch s.h4 s.h5 s.h6) (add32 k w))
  let t2 := add32 (bigSigma0 s.h0) (sha2Maj s.h0 s.h1 s.h2)
  ⟨add32 t1 t2, s.h0, s.h1, s.h2, add32 s.h3 t1, s.h4, s.h5, s.h6⟩

/-- Fold the 64 rounds over the paired round constants and schedule words. -/
def sha256Rounds : Sha256State → List (Nat × Nat) → Sha256State
  | s, [] => s
  | s, (k, w) :: rest => sha256Rounds (sha256Round s k w) rest

/-- Process one 64-byte block: run the 64 rounds on the expanded schedule and
add the result into the running hash value (FIPS 180-4 §6.2.2). -/
def sha256Compress (s : Sha256State) (block : List Nat) : Sha256State :=
  let w := extendSchedule (wordsOfBytes block) 48
  let t := sha256Rounds s (sha256K.zip w)
  ⟨add32 s.h0 t.h0, add32 s.h1 t.h1, add32 s.h2 t.h2, add32 s.h3 t.h3,
   add32 s.h4 t.h4, add32 s.h5 t.h5, add32 s.h6 t.h6, add32 s.h7 t.h7⟩

/-- Process a padded message 64 bytes at a time.  The first argument is
recursion fuel: one unit per byte is always enough, since every step consumes
a 64-byte block. -/
def sha256Blocks : Nat → Sha256State → List Nat → Sha256State
  | 0, s, _ => s
  | _ + 1, s, [] => s
  | fuel + 1, s, b :: rest =>
    sha256Blocks fuel (sha256Compress s ((b :: rest).take 64)) ((b :: rest).drop 64)

/-- Big-endian bytes of a 64-bit message length (FIPS 180-4 §5.1.1). -/
def lenBytes64 (n : Nat) : List Nat :=
  [n / 72057594037927936 % 256, n / 281474976710656 % 256, n / 1099511627776 % 256,
   n / 4294967296 % 256, n / 16777216 % 256, n / 65536 % 256, n / 256 % 256, n % 256]

/-- SHA-256 padding: append `0x80`, then zeros to 56 mod 64, then the bit
length as 8 big-endian bytes (FIPS 180-4 §5.1.1). -/
def padMessage (msg : List Nat) : List Nat :=
  msg ++ [128] ++ List.replicate ((119 - msg.length % 64) % 64) 0 ++ lenBytes64 (8 * msg.length)

/-- Big-endian decomposition of a 32-bit word into 4 bytes (FIPS 180-4 §5.2.1,
used when the final hash value is emitted as a digest). -/
def bytesOfWord (w : Nat) : List Nat :=
  [w / 16777216 % 256, w / 65536 % 256, w / 256 % 256, w % 256]

/-- Embedding of `hashlib.sha256(input).digest()`: the 32-byte SHA-256 digest
of a byte string, per FIPS 180-4. -/
def sha256 (msg : List Nat) : List Nat :=
  let s := sha256Blocks (padMessage msg).length sha256InitState (padMessage msg)
  bytesOfWord s.h0 ++ bytesOfWord s.h1 ++ bytesOfWord s.h2 ++ bytesOfWord s.h3 ++
  bytesOfWord s.h4 ++ bytesOfWord s.h5 ++ bytesOfWord s.h6 ++ bytesOfWord s.h7

/-- The URL-safe base64 alphabet of RFC 4648 §5: `A..Z a..z 0..9 - _`. -/
def urlsafeAlphabet : List Char :=
  ['A', 'B', 'C', 'D', 'E', 'F', 'G', 'H', 'I', 'J', 'K', 'L', 'M',
   'N', 'O', 'P', 'Q', 'R', 'S', 'T', 'U', 'V', 'W', 'X', 'Y', 'Z',
   'a', 'b', 'c', 'd', 'e', 'f', 'g', 'h', 'i', 'j', 'k', 'l', 'm',
   'n', 'o', 'p', 'q', 'r', 's', 't', 'u', 'v', 'w', 'x', 'y', 'z',
   '0', '1', '2', '3', '4', '5', '6', '7', '8', '9', '-', '_']

/-- The URL-safe base64 character for a 6-bit value. -/
def b64Char (n : Nat) : Char := urlsafeAlphabet.getD n 'A'

/-- Embedding of `base64.urlsafe_b64encode` (RFC 4648 §5, with padding):
each 3-byte group becomes 4 alphabet characters; a trailing group of 1 or 2
bytes is padded with `=`. -/
def b64Encode : List Nat → List Char
  | [] => []
  | [a] => [b64Char (a / 4), b64Char (a % 4 * 16), '=', '=']
  | [a, b] => [b64Char (a / 4), b64Char (a % 4 * 16 + b / 16), b64Char (b % 16 * 4), '=']
  | a :: b :: d :: rest =>
    b64Char (a / 4) :: b64Char (a % 4 * 16 + b / 16) ::
    b64Char (b % 16 * 4 + d / 64) :: b64Char (d % 64) :: b64Encode rest

/-- The 6-bit value of a URL-safe base64 character, if it is in the alphabet. -/
def b64Val (c : Char) : Option Nat :=
  if c ∈ urlsafeAlphabet then some (urlsafeAlphabet.indexOf c) else none

/-- Embedding of `base64.urlsafe_b64decode` on correctly padded input:
decode 4 characters to 3 bytes, with `=` padding closing the string. -/
def b64Decode : List Char → Option (List Nat)
  | [] => some []
  | c1 :: c2 :: c3 :: c4 :: rest =>
    match b64Val c1, b64Val c2 with
    | some v1, some v2 =>
      if c3 = '=' ∧ c4 = '=' ∧ rest = [] then
        some [v1 * 4 + v2 / 16]
      else
        match b64Val c3 with
        | some v3 =>
          if c4 = '=' ∧ rest = [] then
            some [v1 * 4 + v2 / 16, v2 % 16 * 16 + v3 / 4]
          else
            match b64Val c4, b64Decode rest with
            | some v4, some bs =>
              some ([v1 * 4 + v2 / 16, v2 % 16 * 16 + v3 / 4, v3 % 4 * 64 + v4] ++ bs)
            | _, _ => none
        | none => none
    | _, _ => none
  | _ => none

/-- The UTF-8 bytes of a Unicode code point (RFC 3629). -/
def utf8Bytes (n : Nat) : List Nat :=
  if n < 128 then [n]
  else if n < 2048 then [192 + n / 64, 128 + n % 64]
  else if n < 65536 then [224 + n / 4096, 128 + n / 64 % 64, 128 + n % 64]
  else [240 + n / 262144, 128 + n / 4096 % 64, 128 + n / 64 % 64, 128 + n % 64]

/-- Embedding of Python `str.encode(utf-8)`: the UTF-8 bytes of a string. -/
def utf8Encode (s : String) : List Nat := s.data.flatMap (fun c => utf8Bytes c.toNat)

/-- A Python argument that is either `str` or `bytes`, as accepted by
`to_url_safe_base64_32_bytes` in `src/key_generate.py`. -/
inductive PyInput where
  | str (s : String)
  | bytes (b : List Nat)

/-- Step 1 of `to_url_safe_base64_32_bytes`: a `str` argument is converted to
its UTF-8 bytes, a `bytes` argument is used as is. -/
def pyInputBytes : PyInput → List Nat
  | .str s => utf8Encode s
  | .bytes b => b

/-- Embedding of `to_url_safe_base64_32_bytes` (`src/key_generate.py`,
lines 4-15): encode a `str` input as UTF-8, hash with SHA-256 to 32 bytes,
and return the URL-safe base64 encoding decoded back to a string. -/
def to_url_safe_base64_32_bytes (user_input : PyInput) : String :=
  let hashed_input := sha256 (pyInputBytes user_input)
  let url_safe_encoded := String.mk (b64Encode hashed_input)
  url_safe_encoded

/-- Modelled from the spec: the external image-codec capability (PIL), absent
from src/.  A loaded image is raw pixel bytes plus a format tag; per the spec
the format may be undetectable (`none`), in which case the decrypt path of
`main` substitutes PNG. -/
structure PILImage where
  data : List Nat
  fmt : Option String
deriving Repr, DecidableEq

/-- Modelled from the spec: the byte serialization `image.save` produces for a
given format, an injective encoding of the format tag followed by the pixel
bytes, so that `imageOpen` can detect the format again (the spec's codec
round-trip).  A leading 0 marks a stream whose format is undetectable. -/
def imageBytes (fmt : String) (data : List Nat) : List Nat :=
  1 :: fmt.length :: (fmt.data.map Char.toNat ++ data)

/-- Modelled from the spec: `image.save(buffer, format=image.format)` as used
by `encrypt_image`; PIL raises when the format is unknown (`none`), and
otherwise emits the serialized bytes. -/
def imageSave (img : PILImage) : Option (List Nat) :=
  match img.fmt with
  | some f => some (imageBytes f img.data)
  | none => none

/-- Modelled from the spec: `PIL.Image.open` on raw bytes; fails (`none`) on
bytes that are not a valid image payload, detects the format tag otherwise,
and reports no format for a stream whose format is undetectable. -/
def imageOpen : List Nat → Option PILImage
  | 0 :: data => some ⟨data, none⟩
  | 1 :: n :: rest =>
    if n ≤ rest.length then
      some ⟨rest.drop n, some (String.mk ((rest.take n).map Char.ofNat))⟩
    else none
  | _ => none

/-- Modelled from the spec: an opaque Fernet token records the 32 raw key
bytes it was produced under and the encrypted payload; the embedded
version/timestamp/IV/HMAC structure is abstracted into the key-match check
that authenticated decryption performs. -/
structure FernetToken where
  keyBytes : List Nat
  payload : List Nat
deriving Repr, DecidableEq

/-- Modelled from the spec: a ciphertext blob handed to the decrypt path is
either a well-formed Fernet token or arbitrary raw bytes (truncated or
corrupted data, or bytes not produced by the cipher). -/
inductive Blob where
  | token (t : FernetToken)
  | raw (bytes : List Nat)
deriving Repr, DecidableEq

/-- Modelled from the spec: the `Fernet(key)` constructor's key-format check —
the key must be the URL-safe base64 representation of exactly 32 raw bytes;
it returns those raw bytes, and fails otherwise. -/
def fernetKeyBytes (key : String) : Option (List Nat) :=
  match b64Decode key.data with
  | some bs => if bs.length = 32 then some bs else none
  | none => none

/-- Modelled from the spec: authenticated encryption under a validated key. -/
def fernetEncrypt (fkey : List Nat) (payload : List Nat) : Blob :=
  .token ⟨fkey, payload⟩

/-- Whether a blob is a valid authenticated token under the given raw key
bytes: it must be a well-formed token whose authentication check passes,
which in this model is the key-match check. -/
def isValidToken (fkey : List Nat) : Blob → Bool
  | .token t => t.keyBytes = fkey
  | .raw _ => false

/-- Modelled from the spec: authenticated decryption — it recovers the
payload when the token authenticates under the key and fails on a wrong key
or a corrupted blob. -/
def fernetDecrypt (fkey : List Nat) (blob : Blob) : Option (List Nat) :=
  match blob with
  | .token t => if t.keyBytes = fkey then some t.payload else none
  | .raw _ => none

/-- Embedding of `encrypt_image` (`src/main.py`, lines 7-12): construct the
cipher from the key, serialize the image in its own format, and encrypt the
serialized bytes; `none` models the branch raising an exception. -/
def encrypt_image (image : PILImage) (key : String) : Option Blob := do
  let fkey ← fernetKeyBytes key
  let image_bytes ← imageSave image
  pure (fernetEncrypt fkey image_bytes)

/-- Embedding of `decrypt_image` (`src/main.py`, lines 15-19): construct the
cipher from the key, decrypt the blob, and decode the recovered bytes as an
image; `none` models the branch raising an exception. -/
def decrypt_image (encrypted_data : Blob) (key : String) : Option PILImage := do
  let fkey ← fernetKeyBytes key
  let decrypted_data ← fernetDecrypt fkey encrypted_data
  imageOpen decrypted_data

/-- The user-visible outcome of one orchestrator request in `main`
(`src/main.py`): a download offer, an inline error, an inline warning, or no
output yet (no file uploaded). -/
inductive UIOutcome where
  | successEncrypt (download : Blob) (fileName mime : String)
  | successDecrypt (download : List Nat) (fileName mime : String)
  | errorMsg (msg : String)
  | warningMsg (msg : String)
  | noOutput
deriving Repr, DecidableEq

/-- Embedding of the encrypt branch of `main` (`src/main.py`, lines 29-53):
the key is derived from the sidebar text unconditionally; with a file
uploaded, Python's truthiness test on the derived key decides between the
encrypt attempt (errors caught and shown) and the empty-key warning. -/
def mainEncrypt (user_input : String) (uploaded_file : Option PILImage) : UIOutcome :=
  let key := to_url_safe_base64_32_bytes (.str user_input)
  match uploaded_file with
  | none => .noOutput
  | some image =>
    if key = "" then .warningMsg "Please provide a valid encryption key."
    else
      match encrypt_image image key with
      | some encrypted_data =>
        .successEncrypt encrypted_data "encrypted_image.enc" "application/octet-stream"
      | none => .errorMsg "Encryption failed"

/-- Embedding of Python `str.lower()` on ASCII format names, as applied to
`decrypted_image_format` in `src/main.py`, lines 75-76. -/
def strLower (s : String) : String := String.mk (s.data.map Char.toLower)

/-- Embedding of the decrypt branch of `main` (`src/main.py`, lines 55-81):
with a file uploaded and a truthy derived key, decrypt and re-save the image
(defaulting the format to PNG when it is missing), deriving the download
name and MIME type from that format; any exception becomes an inline error,
and a missing file or falsy key gives the combined warning. -/
def mainDecrypt (user_input : String) (encrypted_file : Option Blob) : UIOutcome :=
  let key := to_url_safe_base64_32_bytes (.str user_input)
  match encrypted_file with
  | some encrypted_data =>
    if key = "" then
      .warningMsg "Please upload an encrypted image and provide a valid encryption key."
    else
      match decrypt_image encrypted_data key with
      | some decrypted_image =>
        let decrypted_image_format := decrypted_image.fmt.getD "PNG"
        .successDecrypt (imageBytes decrypted_image_format decrypted_image.data)
          (String.append "decrypted_image." (strLower decrypted_image_format))
          (String.append "image/" (strLower decrypted_image_format))
      | none => .errorMsg "Decryption failed"
  | none => .warningMsg "Please upload an encrypted image and provide a valid encryption key."

/-- A SHA-256 digest is exactly 32 bytes (FIPS 180-4: eight 32-bit words). -/
theorem length_sha256 (msg : List Nat) : (sha256 msg).length = 32 := by
  simp [sha256, bytesOfWord]

/-- Every entry of a SHA-256 digest is a byte value below 256. -/
theorem mem_sha256_lt (msg : List Nat) : ∀ x ∈ sha256 msg, x < 256 := by
  simp only [sha256, bytesOfWord, List.mem_append, List.mem_cons, List.not_mem_nil, or_false]
  intro x hx
  rcases hx with h | h <;> try (rcases h with h | h)
  all_goals omega

/-- Decoding inverts the alphabet map on 6-bit values. -/
theorem b64Val_b64Char {n : Nat} (h : n < 64) : b64Val (b64Char n) = some n := by
  have hfin : ∀ m : Fin 64, b64Val (b64Char m.val) = some m.val := by decide
  exact hfin ⟨n, h⟩

/-- Alphabet characters are never the padding character. -/
theorem b64Char_ne_pad {n : Nat} (h : n < 64) : b64Char n ≠ '=' := by
  intro hc
  have h1 := b64Val_b64Char h
  have h2 : b64Val '=' = none := by decide
  rw [hc, h2] at h1
  cases h1

/-- The base64 encoding of `n` bytes has `4 * ((n + 2) / 3)` characters. -/
theorem length_b64Encode (bs : List Nat) :
    (b64Encode bs).length = 4 * ((bs.length + 2) / 3) := by
  induction bs using b64Encode.induct with
  | case1 => rfl
  | case2 a => simp [b64Encode]
  | case3 a b => simp [b64Encode]
  | case4 a b d rest ih => simp [b64Encode, ih]; omega

/-- Decoding inverts encoding on byte strings (RFC 4648 round-trip). -/
theorem b64Decode_b64Encode (bs : List Nat) (hb : ∀ x ∈ bs, x < 256) :
    b64Decode (b64Encode bs) = some bs := by
  induction bs using b64Encode.induct with
  | case1 => rfl
  | case2 a =>
    have ha : a < 256 := hb a (by simp)
    have h1 := b64Val_b64Char (show a / 4 < 64 by omega)
    have h2 := b64Val_b64Char (show a % 4 * 16 < 64 by omega)
    simp [b64Encode, b64Decode, h1, h2]
    omega
  | case3 a b =>
    have ha : a < 256 := hb a (by simp)
    have hbb : b < 256 := hb b (by simp)
    have h1 := b64Val_b64Char (show a / 4 < 64 by omega)
    have h2 := b64Val_b64Char (show a % 4 * 16 + b / 16 < 64 by omega)
    have h3 := b64Val_b64Char (show b % 16 * 4 < 64 by omega)
    have h3ne := b64Char_ne_pad (show b % 16 * 4 < 64 by omega)
    simp [b64Encode, b64Decode, h1, h2, h3, h3ne]
    omega
  | case4 a b d rest ih =>
    have ha : a < 256 := hb a (by simp)
    have hbb : b < 256 := hb b (by simp)
    have hd : d < 256 := hb d (by simp)
    have h1 := b64Val_b64Char (show a / 4 < 64 by omega)
    have h2 := b64Val_b64Char (show a % 4 * 16 + b / 16 < 64 by omega)
    have h3 := b64Val_b64Char (show b % 16 * 4 + d / 64 < 64 by omega)
    have h4 := b64Val_b64Char (show d % 64 < 64 by omega)
    have h3ne := b64Char_ne_pad (show b % 16 * 4 + d / 64 < 64 by omega)
    have h4ne := b64Char_ne_pad (show d % 64 < 64 by omega)
    have ihh := ih (fun x hx => hb x (by simp [hx]))
    simp [b64Encode, b64Decode, h1, h2, h3, h4, h3ne, h4ne, ihh]
    omega

/-- The derivation unfolded: URL-safe base64 of the SHA-256 digest of the
UTF-8 bytes of the passphrase. -/
theorem derived_key_eq (s : String) :
    to_url_safe_base64_32_bytes (.str s) = String.mk (b64Encode (sha256 (utf8Encode s))) := rfl

/-- The derived key is always 44 characters (the base64 form of 32 bytes). -/
theorem length_derived_key (u : PyInput) :
    (to_url_safe_base64_32_bytes u).length = 44 := by
  show (b64Encode (sha256 (pyInputBytes u))).length = 44
  rw [length_b64Encode, length_sha256]

/-- The derived key is never the empty string, so Python's truthiness test
on it always passes. -/
theorem derived_key_ne_empty (u : PyInput) : to_url_safe_base64_32_bytes u ≠ "" := by
  intro h
  have hl := length_derived_key u
  rw [h] at hl
  cases hl

/-- The Fernet key-format check accepts every derived key and recovers the
32 digest bytes it encodes. -/
theorem fernetKeyBytes_derived (u : PyInput) :
    fernetKeyBytes (to_url_safe_base64_32_bytes u) = some (sha256 (pyInputBytes u)) := by
  show fernetKeyBytes (String.mk (b64Encode (sha256 (pyInputBytes u)))) = _
  unfold fernetKeyBytes
  rw [show (String.mk (b64Encode (sha256 (pyInputBytes u)))).data
        = b64Encode (sha256 (pyInputBytes u)) from rfl]
  rw [b64Decode_b64Encode _ (mem_sha256_lt _)]
  simp [length_sha256]

/-- Opening the bytes `image.save` wrote recovers the pixel data and detects
the format again (the codec round-trip of the spec). -/
theorem imageOpen_imageBytes (f : String) (d : List Nat) :
    imageOpen (imageBytes f d) = some ⟨d, some f⟩ := by
  have hlen : f.length = (f.data.map Char.toNat).length := (List.length_map _ _).symm
  have hle : f.length ≤ (f.data.map Char.toNat ++ d).length := by
    rw [List.length_append, ← hlen]
    exact Nat.le_add_right _ _
  have hmap : (f.data.map Char.toNat).map Char.ofNat = f.data := by
    rw [List.map_map]
    have hcg : ∀ c ∈ f.data, (Char.ofNat ∘ Char.toNat) c = id c := by
      intro c _
      simp [Char.ofNat_toNat]
    rw [List.map_congr_left hcg, List.map_id]
  show imageOpen (1 :: f.length :: (f.data.map Char.toNat ++ d)) = _
  rw [imageOpen, if_pos hle, hlen, List.take_left, List.drop_left, hmap]

/-- The base-256 value of a byte string, used only to count digests. -/
def natOfBytes (l : List Nat) : Nat := l.foldr (fun b acc => b + 256 * acc) 0

/-- Unfolding of `natOfBytes` on a cons cell. -/
theorem natOfBytes_cons (a : Nat) (t : List Nat) :
    natOfBytes (a :: t) = a + 256 * natOfBytes t := rfl

/-- The base-256 value of a byte string of length `n` is below `256 ^ n`. -/
theorem natOfBytes_lt (l : List Nat) (hb : ∀ x ∈ l, x < 256) :
    natOfBytes l < 256 ^ l.length := by
  induction l with
  | nil => simp [natOfBytes]
  | cons a t ih =>
    have ha : a < 256 := hb a (by simp)
    have ht := ih (fun x hx => hb x (by simp [hx]))
    rw [natOfBytes_cons, List.length_cons, pow_succ]
    omega

/-- Byte strings of equal length with equal base-256 value are equal. -/
theorem natOfBytes_inj (l1 : List Nat) : ∀ l2 : List Nat, l1.length = l2.length →
    (∀ x ∈ l1, x < 256) → (∀ x ∈ l2, x < 256) →
    natOfBytes l1 = natOfBytes l2 → l1 = l2 := by
  induction l1 with
  | nil =>
    intro l2 hlen _ _ _
    cases l2 with
    | nil => rfl
    | cons b t2 => cases hlen
  | cons a t ih =>
    intro l2 hlen h1 h2 hv
    cases l2 with
    | nil => cases hlen
    | cons b t2 =>
      have ha : a < 256 := h1 a (by simp)
      have hbb : b < 256 := h2 b (by simp)
      rw [natOfBytes_cons, natOfBytes_cons] at hv
      have heq1 : a = b := by omega
      have heq2 : natOfBytes t = natOfBytes t2 := by omega
      have heq3 := ih t2 (by simpa using hlen)
        (fun x hx => h1 x (by simp [hx])) (fun x hx => h2 x (by simp [hx])) heq2
      rw [heq1, heq3]

/-- The string of `n` letters `a`, a family of pairwise distinct passphrases. -/
def aString (n : Nat) : String := String.mk (List.replicate n 'a')

/-- Key derivation is not injective: infinitely many passphrases map into the
finitely many 32-byte digests, so two distinct passphrases share a derived
key (a collision exists classically, though none is concretely known). -/
theorem derive_not_injective :
    ∃ s1 s2 : String, s1 ≠ s2 ∧
      to_url_safe_base64_32_bytes (.str s1) = to_url_safe_base64_32_bytes (.str s2) := by
  have hmap : ∀ n : Nat, natOfBytes (sha256 (utf8Encode (aString n))) < 256 ^ 32 := by
    intro n
    have h := natOfBytes_lt _ (mem_sha256_lt (utf8Encode (aString n)))
    rwa [length_sha256] at h
  obtain ⟨m, n, hmn, hF⟩ := Finite.exists_ne_map_eq_of_infinite
    (fun k : Nat => (⟨natOfBytes (sha256 (utf8Encode (aString k))), hmap k⟩ : Fin (256 ^ 32)))
  refine ⟨aString m, aString n, ?_, ?_⟩
  · intro h
    apply hmn
    have hdata : (aString m).data.length = (aString n).data.length := by rw [h]
    simpa [aString] using hdata
  · have hv : natOfBytes (sha256 (utf8Encode (aString m)))
        = natOfBytes (sha256 (utf8Encode (aString n))) := by
      have h2 := hF
      simp only [Fin.mk.injEq] at h2
      exact h2
    have hlen : (sha256 (utf8Encode (aString m))).length
        = (sha256 (utf8Encode (aString n))).length := by
      rw [length_sha256, length_sha256]
    have hdig := natOfBytes_inj (sha256 (utf8Encode (aString m)))
      (sha256 (utf8Encode (aString n))) hlen (mem_sha256_lt _) (mem_sha256_lt _) hv
    rw [derived_key_eq, derived_key_eq, hdig]

/-- Claim C1: for every input string `s`, the key-derivation operation
returns exactly the URL-safe base64 encoding (with padding, over the
alphabet ending in `-` and `_`) of the 32-byte SHA-256 digest of the UTF-8
encoding of `s`. -/
theorem C1_key_is_b64_of_sha256 (s : String) :
    to_url_safe_base64_32_bytes (.str s) = String.mk (b64Encode (sha256 (utf8Encode s)))
    ∧ (sha256 (utf8Encode s)).length = 32 :=
  ⟨derived_key_eq s, length_sha256 _⟩

/-- Claim C2: key derivation is deterministic — equal input strings yield
identical derived keys. -/
theorem C2_key_derivation_deterministic (s1 s2 : String) (h : s1 = s2) :
    to_url_safe_base64_32_bytes (.str s1) = to_url_safe_base64_32_bytes (.str s2) := by
  rw [h]

/-- Witness for C2 at the concrete passphrase `secret`. -/
theorem C2_key_derivation_deterministic_witness :
    to_url_safe_base64_32_bytes (.str "secret") = to_url_safe_base64_32_bytes (.str "secret") :=
  C2_key_derivation_deterministic "secret" "secret" rfl

/-- Claim C6: key derivation is total — every input, the empty string
included, yields a syntactically valid key that encodes a 32-byte value
(the embedding is a total function, so no error is ever raised). -/
theorem C6_derivation_total (u : PyInput) :
    ∃ bs : List Nat, bs.length = 32
      ∧ b64Decode (to_url_safe_base64_32_bytes u).data = some bs := by
  refine ⟨sha256 (pyInputBytes u), length_sha256 _, ?_⟩
  show b64Decode (b64Encode (sha256 (pyInputBytes u))) = _
  exact b64Decode_b64Encode _ (mem_sha256_lt _)

/-- Claim C10: for every input, string or bytes, the derived key is exactly
44 characters and in particular never empty, so Python's truthiness test on
it always succeeds. -/
theorem C10_key_44_chars_truthy (u : PyInput) :
    (to_url_safe_base64_32_bytes u).length = 44 ∧ to_url_safe_base64_32_bytes u ≠ "" :=
  ⟨length_derived_key u, derived_key_ne_empty u⟩

/-- Claim C9: every derived key satisfies the cipher's key-format
requirement — it decodes to exactly 32 raw bytes — so constructing the
cipher with a derived key never fails, and for a valid upload (an image
with a detected format) the encrypt call succeeds. -/
theorem C9_derived_key_valid_for_cipher (P : String) (image : PILImage) (f : String)
    (hf : image.fmt = some f) :
    fernetKeyBytes (to_url_safe_base64_32_bytes (.str P)) = some (sha256 (utf8Encode P))
    ∧ (encrypt_image image (to_url_safe_base64_32_bytes (.str P))).isSome := by
  constructor
  · exact fernetKeyBytes_derived (.str P)
  · simp [encrypt_image, fernetKeyBytes_derived, imageSave, hf, fernetEncrypt]

/-- Witness for C9 at passphrase `pw` and a one-pixel JPEG image. -/
theorem C9_derived_key_valid_for_cipher_witness :
    fernetKeyBytes (to_url_safe_base64_32_bytes (.str "pw")) = some (sha256 (utf8Encode "pw"))
    ∧ (encrypt_image ⟨[3], some "JPEG"⟩ (to_url_safe_base64_32_bytes (.str "pw"))).isSome :=
  C9_derived_key_valid_for_cipher "pw" ⟨[3], some "JPEG"⟩ "JPEG" rfl

/-- Claim C3: round-trip — encrypting a valid image (one whose format is
detected) under a derived key and decrypting with the same key succeeds and
reproduces the image exactly. -/
theorem C3_round_trip (image : PILImage) (P : String) (f : String)
    (hf : image.fmt = some f) :
    ∃ blob : Blob,
      encrypt_image image (to_url_safe_base64_32_bytes (.str P)) = some blob
      ∧ decrypt_image blob (to_url_safe_base64_32_bytes (.str P)) = some image := by
  obtain ⟨data, fmt⟩ := image
  cases hf
  refine ⟨.token ⟨sha256 (utf8Encode P), imageBytes f data⟩, ?_, ?_⟩
  · simp [encrypt_image, fernetKeyBytes_derived, imageSave, fernetEncrypt, pyInputBytes]
  · simp [decrypt_image, fernetKeyBytes_derived, fernetDecrypt, imageOpen_imageBytes,
      pyInputBytes]

/-- Witness for C3 at passphrase `secret` and a two-byte PNG image. -/
theorem C3_round_trip_witness :
    ∃ blob : Blob,
      encrypt_image ⟨[10, 20], some "PNG"⟩ (to_url_safe_base64_32_bytes (.str "secret")) = some blob
      ∧ decrypt_image blob (to_url_safe_base64_32_bytes (.str "secret"))
          = some ⟨[10, 20], some "PNG"⟩ :=
  C3_round_trip ⟨[10, 20], some "PNG"⟩ "secret" "PNG" rfl

/-- Claim C4 as stated is false: by pigeonhole, two distinct passphrases
share a SHA-256 digest and hence a derived key, and a token encrypted under
one then decrypts successfully under the other, so wrong-passphrase
decryption cannot fail for every pair of distinct passphrases. -/
theorem C4_counterexample :
    ¬ (∀ (image : PILImage) (P P2 : String), P ≠ P2 →
        ∀ blob : Blob, encrypt_image image (to_url_safe_base64_32_bytes (.str P)) = some blob →
          decrypt_image blob (to_url_safe_base64_32_bytes (.str P2)) = none) := by
  intro hclaim
  obtain ⟨s1, s2, hne, hkey⟩ := derive_not_injective
  have henc : encrypt_image ⟨[0], some "PNG"⟩ (to_url_safe_base64_32_bytes (.str s1)) =
      some (.token ⟨sha256 (utf8Encode s1), imageBytes "PNG" [0]⟩) := by
    simp [encrypt_image, fernetKeyBytes_derived, imageSave, fernetEncrypt, pyInputBytes]
  have hdec := hclaim ⟨[0], some "PNG"⟩ s1 s2 hne _ henc
  rw [← hkey] at hdec
  simp [decrypt_image, fernetKeyBytes_derived, fernetDecrypt, pyInputBytes,
    imageOpen_imageBytes] at hdec

/-- Claim C4 amended: whenever the two passphrases derive different keys
(which distinct passphrases do only up to SHA-256 collisions), decrypting
a blob encrypted under the first key with the second key fails. -/
theorem C4_wrong_key_rejected (image : PILImage) (P P2 : String) (blob : Blob)
    (hk : to_url_safe_base64_32_bytes (.str P) ≠ to_url_safe_base64_32_bytes (.str P2))
    (henc : encrypt_image image (to_url_safe_base64_32_bytes (.str P)) = some blob) :
    decrypt_image blob (to_url_safe_base64_32_bytes (.str P2)) = none := by
  have hdig : sha256 (utf8Encode P) ≠ sha256 (utf8Encode P2) := by
    intro h
    apply hk
    rw [derived_key_eq, derived_key_eq, h]
  cases hsave : imageSave image with
  | none =>
    rw [show encrypt_image image (to_url_safe_base64_32_bytes (.str P))
        = none by simp [encrypt_image, fernetKeyBytes_derived, hsave, pyInputBytes]] at henc
    cases henc
  | some bytes =>
    have hblob : blob = .token ⟨sha256 (utf8Encode P), bytes⟩ := by
      rw [show encrypt_image image (to_url_safe_base64_32_bytes (.str P))
          = some (.token ⟨sha256 (utf8Encode P), bytes⟩) by
        simp [encrypt_image, fernetKeyBytes_derived, hsave, fernetEncrypt, pyInputBytes]] at henc
      exact (Option.some.injEq _ _).mp henc.symm
    rw [hblob]
    simp [decrypt_image, fernetKeyBytes_derived, fernetDecrypt, pyInputBytes, hdig]

/-- Witness for the amended C4: a token made under the key for `a` does not
decrypt under the key for `b`. -/
theorem C4_wrong_key_rejected_witness :
    decrypt_image (.token ⟨sha256 (utf8Encode "a"), imageBytes "PNG" [1]⟩)
      (to_url_safe_base64_32_bytes (.str "b")) = none :=
  C4_wrong_key_rejected ⟨[1], some "PNG"⟩ "a" "b" _ (by decide)
    (by simp [encrypt_image, fernetKeyBytes_derived, imageSave, fernetEncrypt, pyInputBytes])

/-- Claim C5: a blob that is not a valid authenticated token under the
derived key — truncated, corrupted, or made under another key — makes the
decrypt branch of `main` report the caught error inline; the orchestrator
is a total function returning a UI outcome, so the process never crashes. -/
theorem C5_corrupted_blob_reported (user_input : String) (blob : Blob)
    (hb : isValidToken (sha256 (utf8Encode user_input)) blob = false) :
    mainDecrypt user_input (some blob) = .errorMsg "Decryption failed" := by
  have hk := derived_key_ne_empty (.str user_input)
  have hdec : decrypt_image blob (to_url_safe_base64_32_bytes (.str user_input)) = none := by
    cases blob with
    | token t =>
      simp only [isValidToken, decide_eq_false_iff_not] at hb
      simp [decrypt_image, fernetKeyBytes_derived, fernetDecrypt, pyInputBytes, hb]
    | raw bytes =>
      simp [decrypt_image, fernetKeyBytes_derived, fernetDecrypt, pyInputBytes]
  simp [mainDecrypt, hk, hdec]

/-- Witness for C5: three raw garbage bytes under passphrase `secret`. -/
theorem C5_corrupted_blob_reported_witness :
    mainDecrypt "secret" (some (.raw [0, 1, 2])) = .errorMsg "Decryption failed" :=
  C5_corrupted_blob_reported "secret" (.raw [0, 1, 2]) rfl

/-- Claim C8: when the decrypted image's format is undetectable, the
decrypt branch silently defaults to PNG for the saved bytes, the download
file name and the MIME type, and reports no warning. -/
theorem C8_undetectable_format_defaults_png (user_input : String) (blob : Blob)
    (img : PILImage)
    (hdec : decrypt_image blob (to_url_safe_base64_32_bytes (.str user_input)) = some img)
    (hfmt : img.fmt = none) :
    mainDecrypt user_input (some blob) =
      .successDecrypt (imageBytes "PNG" img.data) "decrypted_image.png" "image/png" := by
  have hk := derived_key_ne_empty (.str user_input)
  simp [mainDecrypt, hk, hdec, hfmt]
  constructor <;> rfl

/-- Witness for C8: a token under the key for `k` whose payload opens as an
image without a detectable format. -/
theorem C8_undetectable_format_defaults_png_witness :
    mainDecrypt "k" (some (.token ⟨sha256 (utf8Encode "k"), 0 :: [5]⟩)) =
      .successDecrypt (imageBytes "PNG" [5]) "decrypted_image.png" "image/png" :=
  C8_undetectable_format_defaults_png "k" (.token ⟨sha256 (utf8Encode "k"), 0 :: [5]⟩)
    ⟨[5], none⟩
    (by simp [decrypt_image, fernetKeyBytes_derived, fernetDecrypt, pyInputBytes, imageOpen])
    rfl

set_option maxRecDepth 100000 in
/-- Claim C7 is contradicted by the code: with an empty passphrase and an
uploaded image, `main` derives a non-empty key from the empty string, the
truthiness guard passes, and encryption is attempted and succeeds — no
user-input warning is shown and the cipher is called. -/
theorem C7_empty_passphrase_still_encrypts :
    mainEncrypt "" (some ⟨[7, 8], some "PNG"⟩) =
      .successEncrypt (.token ⟨sha256 (utf8Encode ""), imageBytes "PNG" [7, 8]⟩)
        "encrypted_image.enc" "application/octet-stream" := by
  decide
